import Mathlib

/-!
Verification of the frame orchestration pipeline of wel97459/NTSC-CRT
(src/ntsc_crt.c) against its natural-language specification.

The file shallowly embeds, from the source:
  * the colorburst table construction of the batch driver and of the
    interactive driver (`phase_ref`, `batchTable`, `interactiveTable`);
  * the batch convergence loop (`batchPass`, `batchRun`, `batchMain`);
  * the per-pixel phosphor decay filter (`fadePixel`, `fade_phosphors`);
  * the interactive driver's mutable state (`CRT`, `DriverState`), the
    keyboard command handler (`keyAction`, `keydownStep`, `handleInput`)
    and the per-frame tick callback (`displaycb`).

Machine `int`s are modelled as `Int` (or `Nat` where the source value is
a bit pattern); pixels are 32-bit words modelled as `Nat` with explicit
masking, exactly as the source masks them.
-/

namespace NtscCrt

/-! ### Colorburst tables (Signal Parameter Builder) -/

/-- The reference colorburst pattern, `int phase_ref[4] = { 0, 1, 0, -1 }`
(src/ntsc_crt.c line 149). -/
def phase_ref : List Int := [0, 1, 0, -1]

/-- Array lookup `phase_ref[i & 3]`: the source always indexes `phase_ref`
with a value already reduced `& 3`, which for naturals is `% 4`. -/
def phaseRefAt (i : Nat) : Int := phase_ref.getD (i % 4) 0

/-- The colorburst table built by the batch driver (src/ntsc_crt.c lines
212-215): `ntsc.cc[i] = phase_ref[(phase_offset + i) & 3]`. -/
def batchTable (phase_offset : Nat) : List Int :=
  [phaseRefAt (phase_offset + 0), phaseRefAt (phase_offset + 1),
   phaseRefAt (phase_offset + 2), phaseRefAt (phase_offset + 3)]

/-- The batch driver reduces the offset before building the table:
`phase_offset &= 3` (src/ntsc_crt.c line 183). -/
def mainPhase (p : Nat) : Nat := p % 4

/-- The colorburst table hard-coded by the interactive driver
(src/ntsc_crt.c lines 358-361): `cc[0]=1; cc[1]=0; cc[2]=-1; cc[3]=0`. -/
def interactiveTable : List Int := [1, 0, -1, 0]

/-- Left rotation of the reference pattern by `p` positions, as the spec
words it: entry `i` of the rotated table is entry `(p + i) mod 4` of the
reference pattern. -/
def specTable (p : Nat) : List Int :=
  (List.range 4).map fun i => phase_ref.getD ((p + i) % 4) 0

/-! ### Batch convergence loop (Field Sequencer, batch mode) -/

/-- One accumulation pass of the batch loop body (src/ntsc_crt.c lines
220-228): encode-then-draw with the current field; if not progressive,
`ntsc.field ^= 1` and a second encode-then-draw.  `fields` lists the
field value at each encode-then-draw call of the pass, `endField` is the
field value after the pass, and `toggles` counts the executions of the
`ntsc.field ^= 1` statement. -/
def batchPass (progressive : Bool) (f : Bool) : List Bool × Bool × Nat :=
  if progressive then ([f], f, 0) else ([f, !f], !f, 1)

/-- The batch accumulation loop, `n` remaining iterations of
`while (err < 4)` (src/ntsc_crt.c lines 220-229), threading the field
value and concatenating the per-pass call lists. -/
def batchRun (progressive : Bool) : Nat → Bool → List Bool × Bool × Nat
  | 0, f => ([], f, 0)
  | n + 1, f =>
      let p := batchPass progressive f
      let r := batchRun progressive n p.2.1
      (p.1 ++ r.1, r.2.1, p.2.2 + r.2.2)

/-- The whole batch convergence phase: exactly 4 accumulation passes
(`err` runs 0,1,2,3). -/
def batchMain (progressive : Bool) (field0 : Bool) : List Bool × Bool × Nat :=
  batchRun progressive 4 field0

/-! ### Phosphor decay filter (src/ntsc_crt.c lines 325-339) -/

/-- One application of the phosphor decay filter to a single packed
pixel: `c = v[i] & 0xffffff;
v[i] = (c >> 1 & 0x7f7f7f) + (c >> 2 & 0x3f3f3f) +
       (c >> 3 & 0x1f1f1f) + (c >> 4 & 0x0f0f0f);`. -/
def fadePixel (p : Nat) : Nat :=
  let c := p &&& 0xffffff
  (c >>> 1 &&& 0x7f7f7f) + (c >>> 2 &&& 0x3f3f3f) +
  (c >>> 3 &&& 0x1f1f1f) + (c >>> 4 &&& 0x0f0f0f)

/-- `fade_phosphors` maps the per-pixel filter over the whole framebuffer
(the source loops `i` over `XMAX * YMAX` entries of `video`). -/
def fade_phosphors (video : List Nat) : List Nat := video.map fadePixel

/-- Channel `k` (k = 0,1,2) of a packed pixel: the byte at bit position
`8 * k`. -/
def channel (p k : Nat) : Nat := p / 256 ^ k % 256

/-- The effect of one `fadePixel` application on a single 8-bit channel
value: the sum of the four right-shifted copies (the per-channel masks of
the source exactly cut each shifted byte back to its own channel, proved
in `fadePixel_bytes`). -/
def chFade (v : Nat) : Nat := v / 2 + v / 4 + v / 8 + v / 16

/-! ### Interactive driver state (src/ntsc_crt.c lines 247-265) -/

/-- The fields of `struct CRT` that the driver reads or writes directly,
plus the engine's internal state.  Modelled from the spec: the body of
`struct CRT` and of the engine functions lives in crt.h / crt.c, which
are not under src/; the spec (section 6) treats the engine internals as
opaque, so they are collapsed into the single field `engine`. -/
structure CRT where
  saturation : Int
  black_point : Int
  white_point : Int
  brightness : Int
  contrast : Int
  engine : Nat

/-- Modelled from the spec: `crt_reset` is declared in crt.h (not under
src/); per spec section 6 it "restores the engine's internal tuning
defaults (does not touch TuningState knobs owned by this core)", so it
resets only the opaque engine internals. -/
def crt_reset (c : CRT) : CRT := { c with engine := 0 }

/-- The interactive driver's mutable globals (src/ntsc_crt.c lines
249-265) together with the `CRT` tuning fields it mutates.  The C `int`
flags that are only ever 0/1 and toggled with `^= 1` are modelled as
`Bool`; the numeric knobs as `Int`. -/
structure DriverState where
  crt : CRT
  color : Bool
  noise : Int
  fld : Bool
  progressive : Bool
  raw : Bool
  roll : Int
  hs : Int
  vs : Int
  frame : Int
  play : Bool

/-- The keys the `handleInput` switch recognizes (src/ntsc_crt.c lines
380-510); `other` stands for any other key-down. -/
inductive Key
  | escape | k1 | k2 | q | a | w | s | up | down | left | right
  | k3 | k4 | space | r | f | e | t | p | h | y | j | u | o
  | comma | period | other

/-- The SDL events `handleInput` distinguishes: window close, a key-down,
or anything else. -/
inductive Event
  | quit
  | keydown (k : Key)
  | otherEvent

/-- The key-specific mutations of `handleInput` (src/ntsc_crt.c lines
384-510), excluding the trailing `if (!progressive) field ^= 1;`.
The `o`, `comma` and `period` keys additionally call `save_frame` /
`load_frame`, which mutate no modelled state. -/
def keyAction (k : Key) (st : DriverState) : DriverState :=
  match k with
  | .k1 => { st with crt := { st.crt with saturation := st.crt.saturation - 1 } }
  | .k2 => { st with crt := { st.crt with saturation := st.crt.saturation + 1 } }
  | .q => { st with crt := { st.crt with black_point := st.crt.black_point + 1 } }
  | .a => { st with crt := { st.crt with black_point := st.crt.black_point - 1 } }
  | .w => { st with crt := { st.crt with white_point := st.crt.white_point + 1 } }
  | .s => { st with crt := { st.crt with white_point := st.crt.white_point - 1 } }
  | .up => { st with crt := { st.crt with brightness := st.crt.brightness + 1 } }
  | .down => { st with crt := { st.crt with brightness := st.crt.brightness - 1 } }
  | .left => { st with crt := { st.crt with contrast := st.crt.contrast - 1 } }
  | .right => { st with crt := { st.crt with contrast := st.crt.contrast + 1 } }
  | .k3 => { st with noise := if st.noise - 1 < 0 then 0 else st.noise - 1 }
  | .k4 => { st with noise := st.noise + 1 }
  | .space => { st with color := !st.color }
  | .r => { st with crt := crt_reset st.crt, color := true, fld := false,
                    progressive := true, raw := false, frame := 1 }
  | .f => { st with fld := !st.fld }
  | .e => { st with progressive := !st.progressive }
  | .t => { st with raw := !st.raw }
  | .p => { st with play := !st.play }
  | .h => { st with hs := if st.hs - 1 < 0 then 0 else st.hs - 1 }
  | .y => { st with hs := st.hs + 1 }
  | .j => { st with vs := if st.vs - 1 < 0 then 0 else st.vs - 1 }
  | .u => { st with vs := st.vs + 1 }
  | .comma => { st with frame := if st.frame - 1 < 1 then 1 else st.frame - 1 }
  | .period => { st with frame := st.frame + 1 }
  | _ => st

/-- One key-down event: the key-specific mutation followed by the
trailing `if (!progressive) { field ^= 1; }` (src/ntsc_crt.c lines
512-514), which reads `progressive` as left by the key action. -/
def keydownStep (k : Key) (st : DriverState) : DriverState :=
  let s1 := keyAction k st
  if s1.progressive then s1 else { s1 with fld := !s1.fld }

/-- Result of one `handleInput` call: the state after the event loop,
whether exit was requested (`SDL_QUIT` or the escape key return `-1`,
abandoning the remaining events), and how many times the trailing
`if (!progressive) field ^= 1;` executed. -/
structure InputResult where
  state : DriverState
  quit : Bool
  extraToggles : Nat

/-- The `handleInput` event loop (src/ntsc_crt.c lines 370-521),
processing one tick's queued events in order. -/
def handleInput : List Event → DriverState → InputResult
  | [], st => ⟨st, false, 0⟩
  | .quit :: _, st => ⟨st, true, 0⟩
  | .otherEvent :: rest, st => handleInput rest st
  | .keydown .escape :: _, st => ⟨st, true, 0⟩
  | .keydown k :: rest, st =>
      let r := handleInput rest (keydownStep k st)
      ⟨r.state, r.quit, (if (keyAction k st).progressive then 0 else 1) + r.extraToggles⟩

/-! ### Tick callback and capture sequencing (src/ntsc_crt.c 276-368) -/

/-- The file name `load_frame` builds (src/ntsc_crt.c line 279):
`sprintf(name, "../SMPTE_Color_Bars.png", frame)`.  The format string
contains no conversion directive, so `sprintf` copies it verbatim and
the `frame` argument is ignored: the same fixed file is named for every
frame index. -/
def loadName (_frame : Int) : String := "../SMPTE_Color_Bars.png"

/-- Zero-padding of `%04i` for the non-negative frame indices the driver
produces. -/
def pad4 (f : Int) : String :=
  let s := toString f
  if s.length < 4 then String.mk (List.replicate (4 - s.length) '0') ++ s else s

/-- The file name `save_frame` builds (src/ntsc_crt.c line 321):
`sprintf(name, ".../img%04i.png", f)`. -/
def saveName (f : Int) : String :=
  "/home/winston/Downloads/youtube-dl/frames_out/img" ++ pad4 f ++ ".png"

/-- Observable actions of one tick, in order: source-image load, phosphor
fade, encode (with the field value passed in `ntsc.field`), draw, and
output-file write. -/
inductive Ev
  | load (name : String)
  | fade
  | encode (fieldVal : Bool)
  | draw
  | save (name : String)
deriving DecidableEq

/-- One tick of the interactive driver, `displaycb` (src/ntsc_crt.c lines
341-368): if playing, call `load_frame` (whose return value the caller
discards, hence the unused `loadResult` parameter) and increment `frame`;
the `fade_phosphors()` call is commented out in the source and therefore
absent here; toggle `field`; build the NTSC parameters; `roll += 10`;
encode then draw; if playing, save the framebuffer under index
`frame - 1`. -/
def displaycb (_loadResult : Int) (st : DriverState) : DriverState × List Ev :=
  let s1 := if st.play then { st with frame := st.frame + 1 } else st
  let evs1 := if st.play then [Ev.load (loadName st.frame)] else []
  let s2 := { s1 with fld := !s1.fld }
  let s3 := { s2 with roll := s2.roll + 10 }
  let evs2 := [Ev.encode s2.fld, Ev.draw]
  let evs3 := if st.play then [Ev.save (saveName (s1.frame - 1))] else []
  (s3, evs1 ++ evs2 ++ evs3)

/-- The initial values of the driver globals (src/ntsc_crt.c lines
256-265).  The `CRT` knob values left by `crt_init` live in crt.c (not
under src/) and are irrelevant to every claim below (all reset theorems
quantify over arbitrary states); this concrete state fixes them at 0
only to serve as an evaluation point. -/
def globalsInit : DriverState :=
  { crt := ⟨0, 0, 0, 0, 0, 0⟩, color := true, noise := 0, fld := false,
    progressive := true, raw := false, roll := 0, hs := 4, vs := 100,
    frame := 1, play := false }

/-- The driver state when the main loop starts: `main` sets `frame = 200`
(src/ntsc_crt.c line 571) before the first tick. -/
def mainLoopInit : DriverState := { globalsInit with frame := 200 }

/-! ### Byte-level analysis of the phosphor decay filter -/

lemma testBit_bytes (x0 x1 x2 : Nat) (h0 : x0 < 256) (h1 : x1 < 256) (i : Nat) :
    (x0 + 256 * x1 + 65536 * x2).testBit i =
      if i < 8 then x0.testBit i
      else if i < 16 then x1.testBit (i - 8)
      else x2.testBit (i - 16) := by
  have h0' : x0 < 2 ^ 8 := by norm_num; omega
  have h1' : x1 < 2 ^ 8 := by norm_num; omega
  have e : x0 + 256 * x1 + 65536 * x2 = 2 ^ 8 * (2 ^ 8 * x2 + x1) + x0 := by ring
  rw [e, Nat.testBit_mul_pow_two_add _ h0' i]
  by_cases hi : i < 8
  · simp [hi]
  · simp only [hi, if_false]
    rw [Nat.testBit_mul_pow_two_add _ h1' (i - 8)]
    by_cases hi16 : i < 16
    · have : i - 8 < 8 := by omega
      simp [this, hi16]
    · have : ¬ i - 8 < 8 := by omega
      have e2 : i - 8 - 8 = i - 16 := by omega
      simp [this, hi16, e2]

lemma land_bytes (x0 x1 x2 m0 m1 m2 : Nat)
    (hx0 : x0 < 256) (hx1 : x1 < 256) (hm0 : m0 < 256) (hm1 : m1 < 256) :
    (x0 + 256 * x1 + 65536 * x2) &&& (m0 + 256 * m1 + 65536 * m2)
      = (x0 &&& m0) + 256 * (x1 &&& m1) + 65536 * (x2 &&& m2) := by
  have b0 : x0 &&& m0 < 256 := lt_of_le_of_lt Nat.and_le_left hx0
  have b1 : x1 &&& m1 < 256 := lt_of_le_of_lt Nat.and_le_left hx1
  apply Nat.eq_of_testBit_eq
  intro i
  rw [Nat.testBit_and, testBit_bytes x0 x1 x2 hx0 hx1 i,
      testBit_bytes m0 m1 m2 hm0 hm1 i,
      testBit_bytes _ _ _ b0 b1 i]
  by_cases hi : i < 8
  · simp [hi, Nat.testBit_and]
  · by_cases hi16 : i < 16 <;> simp [hi, hi16, Nat.testBit_and]

lemma land_low (x t n : Nat) (hx : x < 2 ^ n) : (x + 2 ^ n * t) &&& (2 ^ n - 1) = x := by
  rw [Nat.and_pow_two_sub_one_eq_mod, Nat.mul_comm, Nat.add_mul_mod_self_right,
      Nat.mod_eq_of_lt hx]

lemma land127 (x t : Nat) (hx : x < 128) : (x + 128 * t) &&& 127 = x := by
  have := land_low x t 7 (by omega)
  norm_num at this
  exact this

lemma land63 (x t : Nat) (hx : x < 64) : (x + 64 * t) &&& 63 = x := by
  have := land_low x t 6 (by omega)
  norm_num at this
  exact this

lemma land31 (x t : Nat) (hx : x < 32) : (x + 32 * t) &&& 31 = x := by
  have := land_low x t 5 (by omega)
  norm_num at this
  exact this

lemma land15 (x t : Nat) (hx : x < 16) : (x + 16 * t) &&& 15 = x := by
  have := land_low x t 4 (by omega)
  norm_num at this
  exact this

lemma and127_self (x : Nat) (hx : x < 128) : x &&& 127 = x := by
  have := land127 x 0 hx
  simpa using this

lemma and63_self (x : Nat) (hx : x < 64) : x &&& 63 = x := by
  have := land63 x 0 hx
  simpa using this

lemma and31_self (x : Nat) (hx : x < 32) : x &&& 31 = x := by
  have := land31 x 0 hx
  simpa using this

lemma and15_self (x : Nat) (hx : x < 16) : x &&& 15 = x := by
  have := land15 x 0 hx
  simpa using this

lemma byteLt1 (x y : Nat) (hx : x < 256) : x / 2 + 128 * (y % 2) < 256 := by omega

lemma byteLt2 (x y : Nat) (hx : x < 256) : x / 4 + 64 * (y % 4) < 256 := by omega

lemma byteLt3 (x y : Nat) (hx : x < 256) : x / 8 + 32 * (y % 8) < 256 := by omega

lemma byteLt4 (x y : Nat) (hx : x < 256) : x / 16 + 16 * (y % 16) < 256 := by omega

lemma divLt1 (x : Nat) (hx : x < 256) : x / 2 < 128 := by omega

lemma divLt2 (x : Nat) (hx : x < 256) : x / 4 < 64 := by omega

lemma divLt3 (x : Nat) (hx : x < 256) : x / 8 < 32 := by omega

lemma divLt4 (x : Nat) (hx : x < 256) : x / 16 < 16 := by omega

lemma lt256 : (127 : Nat) < 256 ∧ (63 : Nat) < 256 ∧ (31 : Nat) < 256 ∧ (15 : Nat) < 256 := by
  norm_num

lemma shift1_bytes (a b d : Nat) :
    (a + 256 * b + 65536 * d) >>> 1
      = (a / 2 + 128 * (b % 2)) + 256 * (b / 2 + 128 * (d % 2)) + 65536 * (d / 2) := by
  rw [Nat.shiftRight_eq_div_pow]
  norm_num
  omega

lemma shift2_bytes (a b d : Nat) :
    (a + 256 * b + 65536 * d) >>> 2
      = (a / 4 + 64 * (b % 4)) + 256 * (b / 4 + 64 * (d % 4)) + 65536 * (d / 4) := by
  rw [Nat.shiftRight_eq_div_pow]
  norm_num
  omega

lemma shift3_bytes (a b d : Nat) :
    (a + 256 * b + 65536 * d) >>> 3
      = (a / 8 + 32 * (b % 8)) + 256 * (b / 8 + 32 * (d % 8)) + 65536 * (d / 8) := by
  rw [Nat.shiftRight_eq_div_pow]
  norm_num
  omega

lemma shift4_bytes (a b d : Nat) :
    (a + 256 * b + 65536 * d) >>> 4
      = (a / 16 + 16 * (b % 16)) + 256 * (b / 16 + 16 * (d % 16)) + 65536 * (d / 16) := by
  rw [Nat.shiftRight_eq_div_pow]
  norm_num
  omega

lemma mask127_bytes : (0x7f7f7f : Nat) = 127 + 256 * 127 + 65536 * 127 := by norm_num

lemma mask63_bytes : (0x3f3f3f : Nat) = 63 + 256 * 63 + 65536 * 63 := by norm_num

lemma mask31_bytes : (0x1f1f1f : Nat) = 31 + 256 * 31 + 65536 * 31 := by norm_num

lemma mask15_bytes : (0x0f0f0f : Nat) = 15 + 256 * 15 + 65536 * 15 := by norm_num

/-- `fadePixel` acts on each of the three bytes of a 24-bit pixel
independently, as `chFade`: the shifts move each byte's bits down while
the masks cut away the bits that crossed a byte boundary, and the four
per-byte summands (at most 0x7f + 0x3f + 0x1f + 0x0f = 0xec) never carry
into the next byte. -/
lemma fadePixel_bytes (a b d : Nat) (ha : a < 256) (hb : b < 256) (hd : d < 256) :
    fadePixel (a + 256 * b + 65536 * d)
      = chFade a + 256 * chFade b + 65536 * chFade d := by
  have hlt : a + 256 * b + 65536 * d < 2 ^ 24 := by norm_num; omega
  have hmask : (a + 256 * b + 65536 * d) &&& 0xffffff = a + 256 * b + 65536 * d := by
    have h24 : (0xffffff : Nat) = 2 ^ 24 - 1 := by norm_num
    rw [h24, Nat.and_pow_two_sub_one_eq_mod, Nat.mod_eq_of_lt hlt]
  have t1 : ((a + 256 * b + 65536 * d) >>> 1) &&& 0x7f7f7f
      = a / 2 + 256 * (b / 2) + 65536 * (d / 2) := by
    rw [shift1_bytes a b d, mask127_bytes,
        land_bytes _ _ _ _ _ _ (byteLt1 a b ha) (byteLt1 b d hb) lt256.1 lt256.1,
        land127 _ _ (divLt1 a ha), land127 _ _ (divLt1 b hb),
        and127_self _ (divLt1 d hd)]
  have t2 : ((a + 256 * b + 65536 * d) >>> 2) &&& 0x3f3f3f
      = a / 4 + 256 * (b / 4) + 65536 * (d / 4) := by
    rw [shift2_bytes a b d, mask63_bytes,
        land_bytes _ _ _ _ _ _ (byteLt2 a b ha) (byteLt2 b d hb) lt256.2.1 lt256.2.1,
        land63 _ _ (divLt2 a ha), land63 _ _ (divLt2 b hb),
        and63_self _ (divLt2 d hd)]
  have t3 : ((a + 256 * b + 65536 * d) >>> 3) &&& 0x1f1f1f
      = a / 8 + 256 * (b / 8) + 65536 * (d / 8) := by
    rw [shift3_bytes a b d, mask31_bytes,
        land_bytes _ _ _ _ _ _ (byteLt3 a b ha) (byteLt3 b d hb) lt256.2.2.1 lt256.2.2.1,
        land31 _ _ (divLt3 a ha), land31 _ _ (divLt3 b hb),
        and31_self _ (divLt3 d hd)]
  have t4 : ((a + 256 * b + 65536 * d) >>> 4) &&& 0x0f0f0f
      = a / 16 + 256 * (b / 16) + 65536 * (d / 16) := by
    rw [shift4_bytes a b d, mask15_bytes,
        land_bytes _ _ _ _ _ _ (byteLt4 a b ha) (byteLt4 b d hb) lt256.2.2.2 lt256.2.2.2,
        land15 _ _ (divLt4 a ha), land15 _ _ (divLt4 b hb),
        and15_self _ (divLt4 d hd)]
  show (((a + 256 * b + 65536 * d) &&& 0xffffff) >>> 1 &&& 0x7f7f7f)
      + (((a + 256 * b + 65536 * d) &&& 0xffffff) >>> 2 &&& 0x3f3f3f)
      + (((a + 256 * b + 65536 * d) &&& 0xffffff) >>> 3 &&& 0x1f1f1f)
      + (((a + 256 * b + 65536 * d) &&& 0xffffff) >>> 4 &&& 0x0f0f0f)
      = chFade a + 256 * chFade b + 65536 * chFade d
  rw [hmask, t1, t2, t3, t4]
  unfold chFade
  ring

lemma chFade_le (v : Nat) : chFade v ≤ v := by
  unfold chFade
  omega

lemma chFade_lt (v : Nat) (hv : 0 < v) : chFade v < v := by
  unfold chFade
  omega

/-- A function that strictly decreases every positive value and fixes 0
drives any value at most `n` to 0 within `n` applications. -/
lemma iterate_to_zero (g : Nat → Nat) (h0 : g 0 = 0)
    (hlt : ∀ v, 0 < v → g v < v) :
    ∀ n v, v ≤ n → g^[n] v = 0 := by
  intro n
  induction n with
  | zero =>
      intro v hv
      simp only [Function.iterate_zero_apply]
      omega
  | succ n ih =>
      intro v hv
      rw [Function.iterate_succ_apply]
      rcases Nat.eq_zero_or_pos v with h | h
      · exact ih (g v) (by rw [h, h0]; omega)
      · exact ih (g v) (by have := hlt v h; omega)

lemma channel_split (p : Nat) (hp : p < 2 ^ 24) :
    p = channel p 0 + 256 * channel p 1 + 65536 * channel p 2 ∧
      channel p 0 < 256 ∧ channel p 1 < 256 ∧ channel p 2 < 256 := by
  unfold channel
  norm_num at hp ⊢
  omega

lemma channel_join (a b d : Nat) (ha : a < 256) (hb : b < 256) (hd : d < 256) :
    channel (a + 256 * b + 65536 * d) 0 = a ∧
      channel (a + 256 * b + 65536 * d) 1 = b ∧
      channel (a + 256 * b + 65536 * d) 2 = d := by
  unfold channel
  norm_num
  omega

/-- Iterating the filter on a 24-bit pixel iterates `chFade` on each of
its three channels independently. -/
lemma fadePixel_iterate (n : Nat) :
    ∀ a b d, a < 256 → b < 256 → d < 256 →
      fadePixel^[n] (a + 256 * b + 65536 * d)
        = chFade^[n] a + 256 * chFade^[n] b + 65536 * chFade^[n] d := by
  induction n with
  | zero => intro a b d _ _ _; simp
  | succ n ih =>
      intro a b d ha hb hd
      rw [Function.iterate_succ_apply, Function.iterate_succ_apply,
          Function.iterate_succ_apply, Function.iterate_succ_apply,
          fadePixel_bytes a b d ha hb hd]
      exact ih _ _ _ (lt_of_le_of_lt (chFade_le a) ha)
        (lt_of_le_of_lt (chFade_le b) hb) (lt_of_le_of_lt (chFade_le d) hd)

/-- The non-negativity / lower-bound invariant of claim C8: noise
amplitude, horizontal and vertical sync offsets are non-negative, and the
playback frame index is at least 1. -/
def goodState (st : DriverState) : Prop :=
  0 ≤ st.noise ∧ 0 ≤ st.hs ∧ 0 ≤ st.vs ∧ 1 ≤ st.frame

instance (st : DriverState) : Decidable (goodState st) := by
  unfold goodState
  infer_instance

lemma goodState_keyAction (k : Key) (st : DriverState) (h : goodState st) :
    goodState (keyAction k st) := by
  cases k <;>
    simp only [keyAction, goodState] at h ⊢ <;>
    first
    | (split_ifs <;> omega)
    | omega

lemma goodState_keydownStep (k : Key) (st : DriverState) (h : goodState st) :
    goodState (keydownStep k st) := by
  have h1 := goodState_keyAction k st h
  unfold keydownStep
  by_cases hp : (keyAction k st).progressive
  · simpa [hp] using h1
  · simpa [hp, goodState] using h1

lemma goodState_handleInput :
    ∀ (evs : List Event) (st : DriverState), goodState st →
      goodState (handleInput evs st).state := by
  intro evs
  induction evs with
  | nil => intro st h; exact h
  | cons ev rest ih =>
      intro st h
      cases ev with
      | quit => exact h
      | otherEvent => exact ih st h
      | keydown k =>
          cases k
          case escape => exact h
          all_goals exact ih _ (goodState_keydownStep _ st h)

/-! ### Claims -/

/-- Claim C1 (code_bug evaluation): `load_frame` builds its file name
with a format string containing no conversion directive, so the loaded
source image is the same fixed file for every value of the frame index —
it is not "selected by the current value of currentFrameIndex".  The rest
of the tick does behave as claimed: one encode, one draw, the output file
is named by the pre-increment index, and the index advances by one. -/
theorem C1_fixed_source_load :
    loadName 1 = loadName 2
      ∧ loadName 1 = "../SMPTE_Color_Bars.png"
      ∧ (displaycb 4 { globalsInit with play := true, frame := 5 }).2
          = [Ev.load "../SMPTE_Color_Bars.png", Ev.encode true, Ev.draw,
             Ev.save (saveName 5)]
      ∧ (displaycb 4 { globalsInit with play := true, frame := 5 }).1.frame = 6 := by
  refine ⟨rfl, rfl, by decide, by decide⟩

/-- Claim C2 (code_bug evaluation): `displaycb` discards the return value
of `load_frame`, so a failed load (`load_frame` returning `-1`) changes
nothing: the tick still increments the frame index, encodes, draws and
writes the output file, instead of halting the sequencer. -/
theorem C2_load_failure_ignored :
    displaycb (-1) { globalsInit with play := true, frame := 7 }
        = displaycb 4 { globalsInit with play := true, frame := 7 }
      ∧ (displaycb (-1) { globalsInit with play := true, frame := 7 }).1.frame = 8
      ∧ Ev.draw ∈ (displaycb (-1) { globalsInit with play := true, frame := 7 }).2
      ∧ Ev.save (saveName 7)
          ∈ (displaycb (-1) { globalsInit with play := true, frame := 7 }).2 := by
  refine ⟨rfl, by decide, by decide, by decide⟩

/-- Claim C3 counterexample: the interactive driver supplies the fixed
colorburst table `{1, 0, -1, 0}` to every encode call; it is not the
canonical reference pattern (the rotation for offset 0), so the claimed
property does not hold of every encode invocation in both drivers. -/
theorem C3_counterexample :
    interactiveTable ≠ specTable 0 ∧ interactiveTable ≠ phase_ref := by
  decide

/-- Claim C3 as amended: in the batch driver the table supplied to every
encode call equals the reference pattern `{0,1,0,-1}` rotated left by
`p mod 4` (the offset is reduced `& 3` before indexing, and offset 0
reproduces the canonical pattern); the interactive driver instead
supplies the fixed table `{1,0,-1,0}`, the reference pattern rotated
left by exactly 1, independent of any phase offset. -/
theorem C3_colorburst (p : Nat) :
    batchTable (mainPhase p) = specTable (p % 4)
      ∧ batchTable (mainPhase 0) = phase_ref
      ∧ interactiveTable = specTable 1 := by
  refine ⟨?_, by decide, by decide⟩
  show batchTable (p % 4) = specTable (p % 4)
  have h : p % 4 = 0 ∨ p % 4 = 1 ∨ p % 4 = 2 ∨ p % 4 = 3 := by omega
  rcases h with h | h | h | h <;> rw [h] <;> decide

/-- Claim C4 counterexample: an interlaced accumulation pass executes
the `ntsc.field ^= 1` statement exactly once (between its two
encode-then-draw calls), not twice; consequently the field parity after
the pass differs from the parity before it. -/
theorem C4_counterexample :
    (batchPass false false).2.2 = 1
      ∧ (batchPass false false).2.2 ≠ 2
      ∧ (batchPass false false).2.1 ≠ false := by
  decide

/-- Claim C4 as amended: batch convergence mode performs exactly 4
accumulation passes regardless of the progressive/interlaced setting;
each interlaced pass performs two encode-then-draw calls and toggles
field parity exactly once (so parity alternates across passes, 4 toggles
in total), while each progressive pass performs exactly one call and
never toggles parity; hence 8 encode-then-draw calls in interlaced mode
and 4 in progressive mode. -/
theorem C4_batch_counts (f : Bool) :
    (batchMain false f).1.length = 8
      ∧ (batchMain true f).1.length = 4
      ∧ (batchPass true f).1.length = 1
      ∧ (batchPass true f).2.2 = 0
      ∧ (batchPass true f).2.1 = f
      ∧ (batchPass false f).1.length = 2
      ∧ (batchPass false f).2.2 = 1
      ∧ (batchPass false f).2.1 = !f
      ∧ (batchMain false f).2.2 = 4
      ∧ (batchMain true f).2.2 = 0 := by
  cases f <;> decide

/-- Claim C5 counterexample: with the progressive flag off, the number of
additional field-parity toggles in one tick's input handling is the
number of key-down events processed that tick — 0, 1 and 2 for batches
of 0, 1 and 2 key-down events — not "exactly one additional time per
tick ... independent of how many control commands were processed". -/
theorem C5_counterexample :
    (handleInput [] { globalsInit with progressive := false }).extraToggles = 0
      ∧ (handleInput [Event.keydown Key.other]
          { globalsInit with progressive := false }).extraToggles = 1
      ∧ (handleInput [Event.keydown Key.other, Event.keydown Key.other]
          { globalsInit with progressive := false }).extraToggles = 2 := by
  decide

/-- Claim C5 as amended: each tick's `displaycb` toggles field parity
exactly once unconditionally before its single encode-then-draw call;
and each key-down event handled while the progressive flag is off
triggers exactly one additional toggle, so the number of additional
toggles per tick equals the number of key-down events processed (zero
when none), rather than being one per tick. -/
theorem C5_parity_toggles :
    (∀ (r : Int) (st : DriverState),
        (displaycb r st).1.fld = !st.fld
          ∧ ((displaycb r st).2.countP fun e =>
              match e with | .encode _ => true | _ => false) = 1
          ∧ ((displaycb r st).2.countP fun e =>
              match e with | .draw => true | _ => false) = 1)
      ∧ (∀ (n : Nat) (st : DriverState), st.progressive = false →
          (handleInput (List.replicate n (Event.keydown Key.other)) st).extraToggles
            = n) := by
  constructor
  · intro r st
    unfold displaycb
    by_cases h : st.play <;> simp [h, List.countP_append, List.countP_cons]
  · intro n
    induction n with
    | zero => intro st h; rfl
    | succ n ih =>
        intro st h
        rw [List.replicate_succ]
        have hk : keyAction Key.other st = st := rfl
        have hstep : keydownStep Key.other st = { st with fld := !st.fld } := by
          unfold keydownStep
          rw [hk]
          simp [h]
        show (if (keyAction Key.other st).progressive then 0 else 1)
            + (handleInput (List.replicate n (Event.keydown Key.other))
                (keydownStep Key.other st)).extraToggles
          = n + 1
        rw [hk, hstep, ih { st with fld := !st.fld } h]
        simp [h]
        omega

/-- Claim C5 witness: the amended statement evaluated on a concrete
tick processing three key-down events with progressive off. -/
theorem C5_parity_toggles_witness :
    ({ globalsInit with progressive := false } : DriverState).progressive = false
      ∧ (handleInput (List.replicate 3 (Event.keydown Key.other))
          { globalsInit with progressive := false }).extraToggles = 3 :=
  ⟨rfl, C5_parity_toggles.2 3 { globalsInit with progressive := false } rfl⟩

/-- Claim C6 counterexample: a displayed frame applies no phosphor decay
at all — the tick's event trace contains no fade application, neither on
an idle tick nor on a playing tick — so the filter is not applied
"exactly once per displayed frame". -/
theorem C6_counterexample :
    Ev.fade ∉ (displaycb 4 globalsInit).2
      ∧ Ev.fade ∉ (displaycb 4 { globalsInit with play := true }).2 := by
  decide

/-- Claim C6 as amended: the phosphor decay filter is applied zero times
per displayed frame — the `fade_phosphors()` call in `displaycb` is
commented out in the source — so no decay runs before the draw call of
any tick. -/
theorem C6_no_fade (r : Int) (st : DriverState) :
    Ev.fade ∉ (displaycb r st).2 := by
  unfold displaycb
  by_cases h : st.play <;> simp [h]

/-- Claim C7: one application of the phosphor decay filter replaces each
pixel by the sum of four right-shifted masked copies of its low 24 bits
(shifts 1, 2, 3, 4 with per-channel masks keeping the low 7, 6, 5, 4
bits); per 8-bit channel it acts as `chFade`, which strictly decreases
every positive channel value and holds 0 at 0; every starting channel
byte value at most 255 reaches 0 within 255 applications, and so does
every whole 24-bit pixel; on a constant framebuffer the filter acts
pixel-wise. -/
theorem C7_phosphor_decay (p k v len : Nat)
    (hp : p < 2 ^ 24) (hk : k < 3) (hv : v ≤ 255) :
    fadePixel p
        = ((p &&& 0xffffff) >>> 1 &&& 0x7f7f7f)
          + ((p &&& 0xffffff) >>> 2 &&& 0x3f3f3f)
          + ((p &&& 0xffffff) >>> 3 &&& 0x1f1f1f)
          + ((p &&& 0xffffff) >>> 4 &&& 0x0f0f0f)
      ∧ channel (fadePixel p) k = chFade (channel p k)
      ∧ (channel (fadePixel p) k < channel p k ∨ channel p k = 0)
      ∧ (0 < v → chFade v < v)
      ∧ chFade^[255] v = 0
      ∧ fadePixel^[255] p = 0
      ∧ fade_phosphors (List.replicate len p) = List.replicate len (fadePixel p) := by
  obtain ⟨hsplit, h0, h1, h2⟩ := channel_split p hp
  have hfp := fadePixel_bytes (channel p 0) (channel p 1) (channel p 2) h0 h1 h2
  rw [← hsplit] at hfp
  have hcj := channel_join (chFade (channel p 0)) (chFade (channel p 1))
    (chFade (channel p 2))
    (lt_of_le_of_lt (chFade_le _) h0) (lt_of_le_of_lt (chFade_le _) h1)
    (lt_of_le_of_lt (chFade_le _) h2)
  have hchan : channel (fadePixel p) k = chFade (channel p k) := by
    rw [hfp]
    interval_cases k
    · exact hcj.1
    · exact hcj.2.1
    · exact hcj.2.2
  refine ⟨rfl, hchan, ?_, fun hv0 => chFade_lt v hv0, ?_, ?_, ?_⟩
  · rcases Nat.eq_zero_or_pos (channel p k) with hz | hz
    · exact Or.inr hz
    · exact Or.inl (hchan ▸ chFade_lt _ hz)
  · exact iterate_to_zero chFade rfl chFade_lt 255 v hv
  · have hit := fadePixel_iterate 255 (channel p 0) (channel p 1) (channel p 2) h0 h1 h2
    rw [← hsplit] at hit
    rw [hit, iterate_to_zero chFade rfl chFade_lt 255 _ (by omega),
        iterate_to_zero chFade rfl chFade_lt 255 _ (by omega),
        iterate_to_zero chFade rfl chFade_lt 255 _ (by omega)]
  · unfold fade_phosphors
    exact List.map_replicate ..

/-- Claim C7 witness: the statement evaluated at pixel 0x00ff40, channel
1, starting byte 255, framebuffer length 2. -/
theorem C7_phosphor_decay_witness :
    (0xff40 : Nat) < 2 ^ 24 ∧ (1 : Nat) < 3 ∧ (255 : Nat) ≤ 255 ∧
      (fadePixel 0xff40
          = (((0xff40 : Nat) &&& 0xffffff) >>> 1 &&& 0x7f7f7f)
            + (((0xff40 : Nat) &&& 0xffffff) >>> 2 &&& 0x3f3f3f)
            + (((0xff40 : Nat) &&& 0xffffff) >>> 3 &&& 0x1f1f1f)
            + (((0xff40 : Nat) &&& 0xffffff) >>> 4 &&& 0x0f0f0f)
        ∧ channel (fadePixel 0xff40) 1 = chFade (channel 0xff40 1)
        ∧ (channel (fadePixel 0xff40) 1 < channel 0xff40 1 ∨ channel 0xff40 1 = 0)
        ∧ ((0 : Nat) < 255 → chFade 255 < 255)
        ∧ chFade^[255] 255 = 0
        ∧ fadePixel^[255] 0xff40 = 0
        ∧ fade_phosphors (List.replicate 2 0xff40)
            = List.replicate 2 (fadePixel 0xff40)) :=
  ⟨by norm_num, by norm_num, le_refl 255,
   C7_phosphor_decay 0xff40 1 255 2 (by norm_num) (by norm_num) (le_refl 255)⟩

/-- Claim C8: after any sequence of input events, the noise amplitude and
the horizontal and vertical sync offsets are non-negative and the
playback frame index is at least 1, provided they were so before (as
they are at program start). -/
theorem C8_nonnegative_knobs (evs : List Event) (st : DriverState)
    (h : goodState st) : goodState (handleInput evs st).state :=
  goodState_handleInput evs st h

/-- Claim C8 witness: the invariant evaluated from the initial state
through a batch of decrement and step-backward commands. -/
theorem C8_nonnegative_knobs_witness :
    goodState globalsInit
      ∧ goodState (handleInput
          [Event.keydown Key.k3, Event.keydown Key.comma, Event.keydown Key.j,
           Event.keydown Key.h, Event.keydown Key.comma]
          globalsInit).state :=
  ⟨by decide, C8_nonnegative_knobs _ globalsInit (by decide)⟩

/-- Claim C9 counterexample: the reset command sets the playback frame
index to 1, not back to its initial value — `main` initializes the index
to 200 before the first tick, so a reset issued in the initial state
changes the index instead of restoring it. -/
theorem C9_counterexample :
    (handleInput [Event.keydown Key.r] mainLoopInit).state.frame
        ≠ mainLoopInit.frame
      ∧ mainLoopInit.frame = 200
      ∧ (handleInput [Event.keydown Key.r] mainLoopInit).state.frame = 1 := by
  decide

/-- Claim C9 as amended: the reset command restores color=on, field
parity=0, progressive=on, raw=off and sets the playback frame index to 1
(the driver's startup value for the index is 200, so this is not "its
initial value"), while leaving brightness, contrast and saturation
unchanged from whatever values they had immediately before the reset. -/
theorem C9_reset (st : DriverState) :
    (handleInput [Event.keydown Key.r] st).state.color = true
      ∧ (handleInput [Event.keydown Key.r] st).state.fld = false
      ∧ (handleInput [Event.keydown Key.r] st).state.progressive = true
      ∧ (handleInput [Event.keydown Key.r] st).state.raw = false
      ∧ (handleInput [Event.keydown Key.r] st).state.frame = 1
      ∧ (handleInput [Event.keydown Key.r] st).state.crt.brightness
          = st.crt.brightness
      ∧ (handleInput [Event.keydown Key.r] st).state.crt.contrast
          = st.crt.contrast
      ∧ (handleInput [Event.keydown Key.r] st).state.crt.saturation
          = st.crt.saturation :=
  ⟨rfl, rfl, rfl, rfl, rfl, rfl, rfl, rfl⟩

/-- Claim C10: the reset command's whole frame effect on the modelled
state: it sets the color, field, progressive and raw flags and the frame
index to their reset values and re-initializes the engine internals, and
changes nothing else — in particular noise amplitude, the play flag, the
sync roll accumulator and both sync offsets are left unchanged. -/
theorem C10_reset_frame_effect (st : DriverState) :
    (handleInput [Event.keydown Key.r] st).state
        = { st with color := true, fld := false, progressive := true,
                    raw := false, frame := 1, crt := crt_reset st.crt }
      ∧ (handleInput [Event.keydown Key.r] st).state.noise = st.noise
      ∧ (handleInput [Event.keydown Key.r] st).state.play = st.play
      ∧ (handleInput [Event.keydown Key.r] st).state.roll = st.roll
      ∧ (handleInput [Event.keydown Key.r] st).state.hs = st.hs
      ∧ (handleInput [Event.keydown Key.r] st).state.vs = st.vs :=
  ⟨rfl, rfl, rfl, rfl, rfl, rfl⟩

end NtscCrt
